import Mathlib

/-!
Verification of the LTest sequential test engine (`src/TestSuite.h`).

The development is a shallow embedding of the engine:

* `SequentialTestRunnableContainer` becomes a state record (`SysState`)
  holding the two runnable slots (`_aboutToRun` / `_running`), the monitor
  flags and the chain head, plus a trace of observable actions
  (schedule calls, `beginRun`/`endRun` brackets, report lines, the summary).
* `startTheLoop` becomes a fuel-indexed recursive function over `SysState`;
  `some s` means the loop reached its `break` within the given fuel.
* `TestCaseLinkedHead::done` / `fail` become state transformers mirroring the
  statement order of the C++ bodies.  Dereferencing a null `_currentCase`
  (which is undefined behaviour in the C++) sets a `crashed` flag.
* The watchdog thread's real-time probe is abstracted by a per-case oracle
  bit `TestCase.stall`: it records whether the 500 ms probe failed while the
  case was executing, and its only effects (setting `isTimeout` and the early
  `_isIdle = true`) are applied between `beginRun` and the case's completion
  signal, which is where the monitor thread can apply them.
* `std::uint32_t` counters are `Nat` reduced modulo `2 ^ 32` at each update.

Case bodies are modelled by the completion signals they deliver: a
synchronous body either returns normally or raises (`Except Err Unit`), and
the `_it` wrapper converts that outcome into `done` / `fail`; an
asynchronous body performs an explicit list of notifier invocations.
-/

namespace LTest

/-- width of the `std::uint32_t` counters used by the engine. -/
def U32 : Nat := 4294967296

/-- increment of a `uint32` counter (`++_totalCaseCount`, `++_succeededCaseCount`). -/
def inc32 (n : Nat) : Nat := (n + 1) % U32

/-- wrapping `uint32` difference, as computed by
`_totalCaseCount - _succeededCaseCount` in `outputWhenAllFinished`. -/
def sub32 (a b : Nat) : Nat := (a + (U32 - b % U32)) % U32

/-- a raised C++ exception (`std::exception_ptr`), abstracted to a label. -/
abbrev Err := String

/-- outcome of invoking a case body once: normal return or a raised error. -/
abbrev BodyResult := Except Err Unit

deriving instance DecidableEq for Except

/-- what a registered case body does with its completion capability:
a synchronous body runs once and its outcome is wrapped by `_it` into a
single `done` / `fail`; an asynchronous body receives the notifier and
performs the listed invocations itself (each `.ok` is a `done()` call,
each `.error e` a `fail(e)` call). -/
inductive CaseBody where
  | sync (result : BodyResult)
  | async (signals : List BodyResult)
deriving DecidableEq

/-- one registered test case (`SequentialTestSpec::TestCase`): its
description, its body, and the watchdog oracle bit `stall` recording
whether the 500 ms probe failed during this case's execution. -/
structure TestCase where
  should : String
  kind : CaseBody
  stall : Bool
deriving DecidableEq

/-- a schedulable unit (`TestRunable`): either the spec object itself
(`SequentialTestSpec::run`, carrying its `_totalCaseCount`) or a
`TestCaseRunnable` holding a shared case together with its linked
successors (a suffix of the registered chain). -/
inductive Runnable where
  | specRun (total : Nat)
  | caseRun (cases : List TestCase)
deriving DecidableEq

/-- observable actions of one run, in program order. -/
inductive Action where
  | beginRun
  | endRun
  | scheduled (r : Runnable)
  | reportPass (should : String) (timedOut : Bool)
  | reportFail (should : String)
  | summary (total succeeded failed : Nat)
deriving DecidableEq

/-- the monitor thread's shared flags: `_isIdle`, `isTimeout`, and whether
the scheduler currently holds `_timedMutex` (held from `notifyBeginRun`
to `notifyEndRun`, i.e. exactly while a runnable executes).  The C++
leaves `_isIdle` and `isTimeout` uninitialised; runs here start from
`isIdle = true`, `isTimeout = false`, which is the pre-first-case steady
state, and `isTimeout` is reset by the loop before the first run anyway. -/
structure MonitorState where
  isIdle : Bool
  isTimeout : Bool
  mutexHeld : Bool
deriving DecidableEq

/-- `TestCaseLinkedHead`: the borrowed container pointer (modelled by the
flag `containerBound`, tested by `isRunning`), the current case together
with its linked successors (`[]` is the null pointer), and the two
`uint32` counters. -/
structure HeadState where
  containerBound : Bool
  currentCase : List TestCase
  totalCaseCount : Nat
  succeededCaseCount : Nat
deriving DecidableEq

/-- the whole engine state: the container's two runnable slots, the
monitor flags, the chain head, the trace of observable actions, and a
flag marking that undefined behaviour (null `_currentCase` dereference)
was reached. -/
structure SysState where
  aboutToRun : Option Runnable
  running : Option Runnable
  monitor : MonitorState
  head : HeadState
  trace : List Action
  crashed : Bool
deriving DecidableEq

/-- append one observable action to the trace. -/
def emit (a : Action) (s : SysState) : SysState :=
  { s with trace := s.trace ++ [a] }

/-- `SequentialTestRunnableContainer::scheduleToRun`: store the runnable
into `_aboutToRun`, replacing any previous pending value. -/
def scheduleToRun (r : Runnable) (s : SysState) : SysState :=
  { s with aboutToRun := some r, trace := s.trace ++ [Action.scheduled r] }

/-- `SequentialTestRunnableContainer::beginRun`: `redirectCout` is a stub;
`MonitorThread::notifyBeginRun` locks `_timedMutex` and clears `_isIdle`. -/
def beginRun (s : SysState) : SysState :=
  { s with
      monitor := { s.monitor with mutexHeld := true, isIdle := false }
      trace := s.trace ++ [Action.beginRun] }

/-- `SequentialTestRunnableContainer::endRun`: `restoreCout` is a stub;
`MonitorThread::notifyEndRun` sets `_isIdle` and unlocks `_timedMutex`;
then `_running` is cleared. -/
def endRun (s : SysState) : SysState :=
  { s with
      monitor := { s.monitor with isIdle := true, mutexHeld := false }
      running := none
      trace := s.trace ++ [Action.endRun] }

/-- the watchdog oracle applied while the case executes: if the probe's
`try_lock_for(500ms)` failed during this case, the monitor thread sets
`isTimeout = true` and `_isIdle = true` (`MonitorThread` loop body). -/
def observeStall (tc : TestCase) (s : SysState) : SysState :=
  if tc.stall then
    { s with monitor := { s.monitor with isTimeout := true, isIdle := true } }
  else s

/-- `TestCaseLinkedHead::done`, statement for statement: read
`_currentCase->next` (null dereference when `_currentCase` is null);
schedule a `TestCaseRunnable` for `next` when it exists; print the report
line, with the timeout mark when `_container->isTimeout()`; increment
`_succeededCaseCount`; advance `_currentCase`; print the summary when
this was the last case; finally call `endRun`. -/
def done (s : SysState) : SysState :=
  match s.head.currentCase with
  | [] => { s with crashed := true }
  | tc :: rest =>
    let s1 := if rest = [] then s else scheduleToRun (Runnable.caseRun rest) s
    let s2 := emit (Action.reportPass tc.should s1.monitor.isTimeout) s1
    let s3 := { s2 with
                  head := { s2.head with
                              succeededCaseCount := inc32 s2.head.succeededCaseCount
                              currentCase := rest } }
    let s4 := if rest = [] then
        emit (Action.summary s3.head.totalCaseCount s3.head.succeededCaseCount
                (sub32 s3.head.totalCaseCount s3.head.succeededCaseCount)) s3
      else s3
    endRun s4

/-- `TestCaseLinkedHead::fail`, statement for statement: like `done` but
the report line is the failure line, and `_succeededCaseCount` is not
incremented.  The exception pointer is unused by the C++ body. -/
def fail (_e : Err) (s : SysState) : SysState :=
  match s.head.currentCase with
  | [] => { s with crashed := true }
  | tc :: rest =>
    let s1 := if rest = [] then s else scheduleToRun (Runnable.caseRun rest) s
    let s2 := emit (Action.reportFail tc.should) s1
    let s3 := { s2 with head := { s2.head with currentCase := rest } }
    let s4 := if rest = [] then
        emit (Action.summary s3.head.totalCaseCount s3.head.succeededCaseCount
                (sub32 s3.head.totalCaseCount s3.head.succeededCaseCount)) s3
      else s3
    endRun s4

/-- one notifier invocation performed by a case body. -/
def signalStep (sig : BodyResult) (s : SysState) : SysState :=
  match sig with
  | Except.ok _ => done s
  | Except.error e => fail e s

/-- the lambda that the synchronous overload of `SequentialTestSpec::_it`
wraps around a body: `try { behaviour(); notifier->done(); } catch (...)
{ notifier->fail(std::current_exception()); }`. -/
def wrappedSyncBody (result : BodyResult) (s : SysState) : SysState :=
  match result with
  | Except.ok _ => done s
  | Except.error e => fail e s

/-- `TestCaseLinkedHead::letItRun`: bind the container, record the total
case count, and schedule the first `TestCaseRunnable` when the chain is
not empty. -/
def letItRun (total : Nat) (s : SysState) : SysState :=
  let s1 := { s with
                head := { s.head with containerBound := true, totalCaseCount := total } }
  match s1.head.currentCase with
  | [] => s1
  | cur => scheduleToRun (Runnable.caseRun cur) s1

/-- `TestRunable::run` of either runnable kind.  `SequentialTestSpec::run`
is `beginRun; _head->letItRun(_totalCaseCount, container); endRun`.
`TestCaseRunnable::run` is `beginRun; _testCase->verifyBehaviour()`, with
the watchdog oracle applied while the body executes. -/
def runRunnable (r : Runnable) (s : SysState) : SysState :=
  match r with
  | Runnable.specRun total => endRun (letItRun total (beginRun s))
  | Runnable.caseRun tcs =>
    match tcs with
    | [] => { s with crashed := true }
    | tc :: _ =>
      let s1 := observeStall tc (beginRun s)
      match tc.kind with
      | CaseBody.sync result => wrappedSyncBody result s1
      | CaseBody.async sigs => sigs.foldl (fun acc sig => signalStep sig acc) s1

/-- the loop body's promotion step (`startTheLoop`, pending non-empty and
nothing running): reset `isTimeout`, move `_aboutToRun` into `_running`,
clear `_aboutToRun`. -/
def promote (r : Runnable) (s : SysState) : SysState :=
  { s with
      monitor := { s.monitor with isTimeout := false }
      running := some r
      aboutToRun := none }

/-- `SequentialTestRunnableContainer::startTheLoop`, with explicit fuel:
`some s` means the `break` was reached within `fuel` iterations; `none`
means the loop was still spinning (the yield branches leave the state
unchanged, which is how a run with a never-signalling case spins forever). -/
def startTheLoop : Nat → SysState → Option SysState
  | 0, _ => none
  | fuel + 1, s =>
    match s.aboutToRun with
    | none =>
      match s.running with
      | none => some s
      | some _ => startTheLoop fuel s
    | some r =>
      match s.running with
      | none => startTheLoop fuel (runRunnable r (promote r s))
      | some _ => startTheLoop fuel s

/-- `SequentialTestRunnableContainer::start` (first call; `std::call_once`
makes later calls no-ops): when something is pending, create the monitor
thread and enter the loop, otherwise do nothing. -/
def start (fuel : Nat) (s : SysState) : Option SysState :=
  match s.aboutToRun with
  | none => some s
  | some _ => startTheLoop fuel s

/-- build-time state of `SequentialTestSpec`: the shared head (whose
`currentCase` is the chain built so far, set by `append` through `*_head =
testCase` for the first case and `tail->next = testCase` afterwards) and
the spec's own `_totalCaseCount`. -/
structure BuildState where
  head : HeadState
  total : Nat
deriving DecidableEq

/-- `SequentialTestSpec::_it` (both overloads share this shape): if
`_head->isRunning()` then throw (second component `true`), else
`append(testCase).incCaseCount()`.  Appending to the tail of the linked
list is appending to the end of the chain viewed from the head. -/
def itCase (tc : TestCase) (s : BuildState) : BuildState × Bool :=
  if s.head.containerBound then (s, true)
  else
    ({ head := { s.head with currentCase := s.head.currentCase ++ [tc] }
       total := inc32 s.total }, false)

/-- the freshly constructed spec: empty chain, unbound head, zero counters. -/
def initBuild : BuildState :=
  { head := { containerBound := false, currentCase := [], totalCaseCount := 0
              succeededCaseCount := 0 }
    total := 0 }

/-- registering a list of cases by chained `it` calls on a fresh spec. -/
def buildSpec (regs : List TestCase) : BuildState :=
  regs.foldl (fun s tc => (itCase tc s).1) initBuild

/-- a fresh `SequentialTestRunnableContainer` holding the built spec's head. -/
def initSys (b : BuildState) : SysState :=
  { aboutToRun := none
    running := none
    monitor := { isIdle := true, isTimeout := false, mutexHeld := false }
    head := b.head
    trace := []
    crashed := false }

/-- the whole program of `main`: build the spec from the registrations,
hand it to the container with `scheduleToRun`, and `start` the container. -/
def runRegistered (regs : List TestCase) (fuel : Nat) : Option SysState :=
  let b := buildSpec regs
  start fuel (scheduleToRun (Runnable.specRun b.total) (initSys b))

/-! Closed forms describing one full run, to be proved equal to the
operational loop. -/

/-- whether a body result is a normal return. -/
def sigOk : BodyResult → Bool
  | Except.ok _ => true
  | Except.error _ => false

/-- a case is well behaved when its body delivers exactly one completion
signal: synchronous bodies always do (through the `_it` wrapping), and an
asynchronous body must invoke its notifier exactly once. -/
def goodCase (tc : TestCase) : Bool :=
  match tc.kind with
  | CaseBody.sync _ => true
  | CaseBody.async sigs => sigs.length == 1

/-- the single completion signal a well-behaved case delivers. -/
def signalOf (tc : TestCase) : BodyResult :=
  match tc.kind with
  | CaseBody.sync r => r
  | CaseBody.async sigs => sigs.headD (Except.ok ())

/-- the report line a well-behaved case produces: the pass line (with the
timeout mark exactly when the watchdog flagged this case) on `done`, the
failure line on `fail`. -/
def reportOf (tc : TestCase) : Action :=
  match signalOf tc with
  | Except.ok _ => Action.reportPass tc.should tc.stall
  | Except.error _ => Action.reportFail tc.should

/-- the succeeded counter after one well-behaved case completes. -/
def succAfter (tc : TestCase) (succ : Nat) : Nat :=
  if sigOk (signalOf tc) then inc32 succ else succ

/-- the actions emitted while one well-behaved case runs, given the cases
still linked after it and the succeeded count before it. -/
def caseBlock (total : Nat) (tc : TestCase) (rest : List TestCase) (succ : Nat) :
    List Action :=
  [Action.beginRun]
    ++ (if rest = [] then [] else [Action.scheduled (Runnable.caseRun rest)])
    ++ [reportOf tc]
    ++ (if rest = [] then
          [Action.summary total (succAfter tc succ) (sub32 total (succAfter tc succ))]
        else [])
    ++ [Action.endRun]

/-- the actions emitted by a whole chain of well-behaved cases. -/
def chainTrace (total : Nat) : List TestCase → Nat → List Action
  | [], _ => []
  | tc :: rest, succ => caseBlock total tc rest succ ++ chainTrace total rest (succAfter tc succ)

/-- the succeeded counter after a whole chain of well-behaved cases. -/
def chainSucc : List TestCase → Nat → Nat
  | [], succ => succ
  | tc :: rest, succ => chainSucc rest (succAfter tc succ)

/-- the monitor's `isTimeout` flag after a whole chain: the loop resets it
before each case, so it ends as the last case's stall bit. -/
def finalTimeout : List TestCase → Bool → Bool
  | [], t0 => t0
  | tc :: rest, _ => finalTimeout rest tc.stall

/-- the pending slot that the head leaves behind for a chain suffix:
nothing for the null case, a `TestCaseRunnable` otherwise. -/
def optCaseRun : List TestCase → Option Runnable
  | [] => none
  | tc :: rest => some (Runnable.caseRun (tc :: rest))

/-- whether an action is a per-case report line. -/
def isReportA : Action → Bool
  | Action.reportPass _ _ => true
  | Action.reportFail _ => true
  | _ => false

/-- the per-case report lines of a trace, in order. -/
def reportsOf (tr : List Action) : List Action := tr.filter isReportA

/-- whether an action is the final summary line. -/
def isSummaryA : Action → Bool
  | Action.summary _ _ _ => true
  | _ => false

/-- the summary lines of a trace. -/
def summariesOf (tr : List Action) : List Action := tr.filter isSummaryA

/-- how many cases of a chain complete with `done`. -/
def countOk (cs : List TestCase) : Nat := cs.countP (fun tc => sigOk (signalOf tc))

/-- the actions emitted before the first case runs: scheduling the spec,
its `beginRun`, the scheduling of the first case (when there is one) and
its `endRun`. -/
def specPrologue (regs : List TestCase) : List Action :=
  [Action.scheduled (Runnable.specRun (regs.length % U32)), Action.beginRun]
    ++ (if regs = [] then [] else [Action.scheduled (Runnable.caseRun regs)])
    ++ [Action.endRun]

/-- the closed-form final state of a full run over well-behaved cases. -/
def finalState (regs : List TestCase) : SysState :=
  { aboutToRun := none
    running := none
    monitor := ⟨true, finalTimeout regs false, false⟩
    head := { containerBound := true, currentCase := []
              totalCaseCount := regs.length % U32
              succeededCaseCount := chainSucc regs 0 }
    trace := specPrologue regs ++ chainTrace (regs.length % U32) regs 0
    crashed := false }

/-- Modelled from the spec: the three reactions of the scheduling loop's
state machine in section 4.1, one per inspection of the pending/active
pair — terminate, yield and retry, or promote pending and run it. -/
inductive LoopRule where
  | terminate
  | yieldRetry
  | promoteRun
deriving DecidableEq

/-- Modelled from the spec: which rule section 4.1 prescribes for each
shape of the pending/active pair. -/
def specLoopRule (pending active : Option Runnable) : LoopRule :=
  match pending, active with
  | none, none => LoopRule.terminate
  | none, some _ => LoopRule.yieldRetry
  | some _, none => LoopRule.promoteRun
  | some _, some _ => LoopRule.yieldRetry

/-- `MonitorThread::notifyBeginRun`: lock `_timedMutex`, clear `_isIdle`. -/
def notifyBeginRun (m : MonitorState) : MonitorState :=
  { m with mutexHeld := true, isIdle := false }

/-- `MonitorThread::notifyEndRun`: set `_isIdle`, unlock `_timedMutex`. -/
def notifyEndRun (m : MonitorState) : MonitorState :=
  { m with isIdle := true, mutexHeld := false }

/-- one round of the monitor thread's probe loop: nothing happens while
idle; otherwise `acquired` says whether `try_lock_for(500ms)` on
`_timedMutex` succeeded before the bound — on success the lock is
released at once and nothing changes, on failure the thread records the
timeout and marks itself idle although the case is still running. -/
def probeStep (acquired : Bool) (m : MonitorState) : MonitorState :=
  if m.isIdle then m
  else if acquired then m
  else { m with isTimeout := true, isIdle := true }

/-- an event the monitor's shared flags can undergo: the scheduler's two
bracket calls, or one probe round with its timing outcome. -/
inductive MonitorOp where
  | beginR
  | endR
  | probe (acquired : Bool)
deriving DecidableEq

/-- replaying a sequence of monitor events. -/
def monApply : MonitorState → List MonitorOp → MonitorState
  | m, [] => m
  | m, op :: ops =>
    monApply
      (match op with
        | MonitorOp.beginR => notifyBeginRun m
        | MonitorOp.endR => notifyEndRun m
        | MonitorOp.probe acq => probeStep acq m) ops

/-- the monitor flags at rest before the first case. -/
def initMonitor : MonitorState := ⟨true, false, false⟩

/-- the three-case scenario of the spec, section 8: a passing synchronous
case, a raising synchronous case, an asynchronous case that calls `done`. -/
def demoChain : List TestCase :=
  [⟨"a", CaseBody.sync (Except.ok ()), false⟩,
   ⟨"b", CaseBody.sync (Except.error "boom"), false⟩,
   ⟨"c", CaseBody.async [Except.ok ()], false⟩]

/-- a single asynchronous case whose body invokes `done` twice. -/
def doubleDoneChain : List TestCase :=
  [⟨"a", CaseBody.async [Except.ok (), Except.ok ()], false⟩]

/-- the slow-case scenario of the spec, section 8: one synchronous case
flagged by the watchdog that still completes normally. -/
def slowChain : List TestCase :=
  [⟨"slow", CaseBody.sync (Except.ok ()), true⟩]

/-- a spec whose head a container already bound (`letItRun` ran). -/
def boundBuild : BuildState :=
  { head := { containerBound := true, currentCase := []
              totalCaseCount := 0, succeededCaseCount := 0 }
    total := 0 }

/-- a mid-run state whose head still links two cases, used to exercise a
repeated completion signal. -/
def twoCaseState : SysState :=
  { aboutToRun := none
    running := some (Runnable.caseRun
      [⟨"x", CaseBody.sync (Except.ok ()), false⟩,
       ⟨"y", CaseBody.sync (Except.ok ()), false⟩])
    monitor := ⟨false, false, true⟩
    head := { containerBound := true
              currentCase :=
                [⟨"x", CaseBody.sync (Except.ok ()), false⟩,
                 ⟨"y", CaseBody.sync (Except.ok ()), false⟩]
              totalCaseCount := 2
              succeededCaseCount := 0 }
    trace := []
    crashed := false }

/-- one promoted `TestCaseRunnable` executes its whole well-behaved case:
the watchdog bracket, the optional scheduling of the successor, the report
line, the counter update, the optional summary and the closing `endRun`. -/
lemma caseStep (s : SysState) (tc : TestCase) (rest : List TestCase)
    (hcur : s.head.currentCase = tc :: rest)
    (hgood : goodCase tc = true) :
    runRunnable (Runnable.caseRun (tc :: rest)) (promote (Runnable.caseRun (tc :: rest)) s) =
      { aboutToRun := optCaseRun rest
        running := none
        monitor := ⟨true, tc.stall, false⟩
        head := { s.head with
                    currentCase := rest
                    succeededCaseCount := succAfter tc s.head.succeededCaseCount }
        trace := s.trace ++ caseBlock s.head.totalCaseCount tc rest s.head.succeededCaseCount
        crashed := s.crashed } := by
  obtain ⟨should, kind, stall⟩ := tc
  cases kind with
  | sync result =>
    cases result with
    | ok u =>
      cases rest <;> cases stall <;>
        simp [runRunnable, wrappedSyncBody, done, observeStall, beginRun, endRun,
          promote, scheduleToRun, emit, hcur, succAfter, caseBlock, optCaseRun,
          reportOf, signalOf, sigOk, goodCase]
    | error e =>
      cases rest <;> cases stall <;>
        simp [runRunnable, wrappedSyncBody, fail, observeStall, beginRun, endRun,
          promote, scheduleToRun, emit, hcur, succAfter, caseBlock, optCaseRun,
          reportOf, signalOf, sigOk, goodCase]
  | async sigs =>
    have hlen : sigs.length = 1 := by
      simpa [goodCase] using hgood
    obtain ⟨sig, rfl⟩ := List.length_eq_one.mp hlen
    cases sig with
    | ok u =>
      cases rest <;> cases stall <;>
        simp [runRunnable, signalStep, done, observeStall, beginRun, endRun,
          promote, scheduleToRun, emit, hcur, succAfter, caseBlock, optCaseRun,
          reportOf, signalOf, sigOk, goodCase]
    | error e =>
      cases rest <;> cases stall <;>
        simp [runRunnable, signalStep, fail, observeStall, beginRun, endRun,
          promote, scheduleToRun, emit, hcur, succAfter, caseBlock, optCaseRun,
          reportOf, signalOf, sigOk, goodCase]

/-- loop branch: nothing pending and nothing running reaches `break`. -/
lemma startTheLoop_halt (fuel : Nat) (s : SysState)
    (h1 : s.aboutToRun = none) (h2 : s.running = none) :
    startTheLoop (fuel + 1) s = some s := by
  unfold startTheLoop
  rw [h1, h2]

/-- loop branch: something still running makes the loop yield and retry
with the state unchanged. -/
lemma startTheLoop_yield (fuel : Nat) (s : SysState) (r : Runnable)
    (h2 : s.running = some r) :
    startTheLoop (fuel + 1) s = startTheLoop fuel s := by
  conv_lhs => rw [startTheLoop]
  cases h : s.aboutToRun <;> rw [h2]

/-- loop branch: something pending and nothing running promotes the
pending runnable (resetting `isTimeout`, moving it into `_running` and
clearing `_aboutToRun`) and invokes its `run`. -/
lemma startTheLoop_promote (fuel : Nat) (s : SysState) (r : Runnable)
    (h1 : s.aboutToRun = some r) (h2 : s.running = none) :
    startTheLoop (fuel + 1) s = startTheLoop fuel (runRunnable r (promote r s)) := by
  conv_lhs => rw [startTheLoop]
  rw [h1, h2]

/-- the scheduling loop consumes a chain of well-behaved cases one
promotion at a time and halts with the slots empty, the chain exhausted,
and exactly the closed-form trace appended. -/
lemma startTheLoop_chain :
    ∀ (cs : List TestCase) (s : SysState),
      (∀ tc ∈ cs, goodCase tc = true) →
      s.aboutToRun = optCaseRun cs →
      s.running = none →
      s.head.currentCase = cs →
      s.monitor.isIdle = true →
      s.monitor.mutexHeld = false →
      startTheLoop (cs.length + 1) s = some
        { aboutToRun := none
          running := none
          monitor := ⟨true, finalTimeout cs s.monitor.isTimeout, false⟩
          head := { s.head with
                      currentCase := []
                      succeededCaseCount := chainSucc cs s.head.succeededCaseCount }
          trace := s.trace ++ chainTrace s.head.totalCaseCount cs s.head.succeededCaseCount
          crashed := s.crashed }
  | [], s => by
    intro _ habout hrun hcur hidle hheld
    obtain ⟨about, run, ⟨mIdle, mTime, mHeld⟩, ⟨bound, cur, total, succ⟩, tr, cr⟩ := s
    simp only [optCaseRun] at habout
    simp_all [startTheLoop, finalTimeout, chainSucc, chainTrace]
  | tc :: rest, s => by
    intro hgood habout hrun hcur hidle hheld
    have hstep := caseStep s tc rest hcur (hgood tc (List.mem_cons_self tc rest))
    have hrec := startTheLoop_chain rest
      (runRunnable (Runnable.caseRun (tc :: rest)) (promote (Runnable.caseRun (tc :: rest)) s))
      (fun t ht => hgood t (List.mem_cons_of_mem tc ht))
      (by rw [hstep])
      (by rw [hstep])
      (by rw [hstep])
      (by rw [hstep])
      (by rw [hstep])
    simp only [optCaseRun] at habout
    rw [List.length_cons,
      startTheLoop_promote (rest.length + 1) s (Runnable.caseRun (tc :: rest)) habout hrun,
      hrec, hstep]
    simp [chainTrace, chainSucc, finalTimeout, List.append_assoc]

/-- registering cases on a not-yet-running spec appends them in order and
counts them with the wrapping `uint32` increment. -/
lemma buildSpec_go :
    ∀ (regs cur : List TestCase) (tot tcc scc : Nat),
      regs.foldl (fun s tc => (itCase tc s).1)
        { head := { containerBound := false, currentCase := cur
                    totalCaseCount := tcc, succeededCaseCount := scc }
          total := tot } =
      { head := { containerBound := false, currentCase := cur ++ regs
                  totalCaseCount := tcc, succeededCaseCount := scc }
        total := regs.foldl (fun t _ => inc32 t) tot }
  | [], cur, tot, tcc, scc => by simp [itCase]
  | tc :: rest, cur, tot, tcc, scc => by
    rw [List.foldl_cons]
    have h1 : (itCase tc
        { head := { containerBound := false, currentCase := cur
                    totalCaseCount := tcc, succeededCaseCount := scc }
          total := tot }).1 =
        { head := { containerBound := false, currentCase := cur ++ [tc]
                    totalCaseCount := tcc, succeededCaseCount := scc }
          total := inc32 tot } := by
      simp [itCase]
    rw [h1, buildSpec_go rest (cur ++ [tc]) (inc32 tot) tcc scc]
    simp

/-- folding the wrapping increment over a chain counts its length mod `2 ^ 32`. -/
lemma inc32_foldl (regs : List TestCase) :
    ∀ t, t < U32 → regs.foldl (fun t _ => inc32 t) t = (t + regs.length) % U32 := by
  induction regs with
  | nil =>
    intro t ht
    simp [Nat.mod_eq_of_lt ht]
  | cons tc rest ih =>
    intro t ht
    have h1 : inc32 t < U32 := Nat.mod_lt _ (by simp [U32])
    rw [List.foldl_cons, ih (inc32 t) h1]
    simp only [inc32, U32, List.length_cons]
    omega

/-- the spec built from a registration list: chain in registration order,
head not yet bound, total count equal to the length mod `2 ^ 32`. -/
lemma buildSpec_eq (regs : List TestCase) :
    buildSpec regs =
      { head := { containerBound := false, currentCase := regs
                  totalCaseCount := 0, succeededCaseCount := 0 }
        total := regs.length % U32 } := by
  rw [buildSpec, initBuild, buildSpec_go regs [] 0 0 0,
    inc32_foldl regs 0 (by simp [U32])]
  simp

/-- running the spec runnable: the `beginRun`/`endRun` bracket around
`letItRun`, which binds the container, stores the total and schedules the
first case when there is one. -/
lemma specStep (total : Nat) (cs : List TestCase) (s : SysState)
    (habout : s.aboutToRun = none) (hcur : s.head.currentCase = cs) :
    runRunnable (Runnable.specRun total) s =
      { aboutToRun := optCaseRun cs
        running := none
        monitor := { s.monitor with isIdle := true, mutexHeld := false }
        head := { s.head with containerBound := true, totalCaseCount := total }
        trace := s.trace ++ [Action.beginRun]
          ++ (if cs = [] then [] else [Action.scheduled (Runnable.caseRun cs)])
          ++ [Action.endRun]
        crashed := s.crashed } := by
  cases cs with
  | nil =>
    simp [runRunnable, letItRun, beginRun, endRun, scheduleToRun, optCaseRun,
      hcur, habout]
  | cons tc rest =>
    simp [runRunnable, letItRun, beginRun, endRun, scheduleToRun, optCaseRun,
      hcur, habout]

/-- a full run (register, schedule the spec, `start`) over well-behaved
cases terminates within `N + 2` loop iterations in the closed-form state. -/
lemma runRegistered_eq (regs : List TestCase)
    (hGood : ∀ tc ∈ regs, goodCase tc = true) :
    runRegistered regs (regs.length + 2) = some (finalState regs) := by
  rw [runRegistered]
  rw [buildSpec_eq]
  simp only [start, scheduleToRun, initSys]
  rw [show regs.length + 2 = regs.length + 1 + 1 from rfl]
  rw [startTheLoop_promote (regs.length + 1) _ (Runnable.specRun (regs.length % U32))
    rfl rfl]
  rw [specStep (regs.length % U32) regs _ rfl rfl]
  rw [startTheLoop_chain regs _ hGood rfl rfl rfl rfl rfl]
  simp [finalState, specPrologue, promote, List.append_assoc]

/-- every well-behaved case yields a report line. -/
lemma isReportA_reportOf (tc : TestCase) : isReportA (reportOf tc) = true := by
  cases h : signalOf tc <;> simp [reportOf, h, isReportA]

/-- the report lines of one case's block are exactly its own report. -/
lemma reportsOf_caseBlock (total : Nat) (tc : TestCase) (rest : List TestCase)
    (succ : Nat) : reportsOf (caseBlock total tc rest succ) = [reportOf tc] := by
  cases h : signalOf tc <;> cases rest <;>
    simp [reportsOf, caseBlock, isReportA, List.filter_append, reportOf, h]

/-- the report lines of a whole chain are its cases' reports in order. -/
lemma reportsOf_chainTrace (total : Nat) :
    ∀ (cs : List TestCase) (succ : Nat),
      reportsOf (chainTrace total cs succ) = cs.map reportOf
  | [], _ => by simp [chainTrace, reportsOf]
  | tc :: rest, succ => by
    rw [chainTrace, reportsOf, List.filter_append]
    rw [show List.filter isReportA (caseBlock total tc rest succ)
        = reportsOf (caseBlock total tc rest succ) from rfl]
    rw [show List.filter isReportA (chainTrace total rest (succAfter tc succ))
        = reportsOf (chainTrace total rest (succAfter tc succ)) from rfl]
    rw [reportsOf_caseBlock, reportsOf_chainTrace total rest (succAfter tc succ)]
    simp

/-- the prologue before the first case emits no report line. -/
lemma reportsOf_specPrologue (regs : List TestCase) :
    reportsOf (specPrologue regs) = [] := by
  cases regs <;> simp [reportsOf, specPrologue, isReportA, List.filter_append]

/-- the summary lines of one case's block: only the last case emits one. -/
lemma summariesOf_caseBlock (total : Nat) (tc : TestCase) (rest : List TestCase)
    (succ : Nat) :
    summariesOf (caseBlock total tc rest succ) =
      if rest = [] then
        [Action.summary total (succAfter tc succ) (sub32 total (succAfter tc succ))]
      else [] := by
  cases h : signalOf tc <;> cases rest <;>
    simp [summariesOf, caseBlock, isSummaryA, List.filter_append, reportOf, h]

/-- a non-empty chain emits exactly one summary line, carrying the final
counters: the total, the final succeeded count, and their wrapping
difference. -/
lemma summariesOf_chainTrace (total : Nat) :
    ∀ (cs : List TestCase) (succ : Nat), cs ≠ [] →
      summariesOf (chainTrace total cs succ) =
        [Action.summary total (chainSucc cs succ) (sub32 total (chainSucc cs succ))]
  | [], _, h => absurd rfl h
  | tc :: rest, succ, _ => by
    rw [chainTrace, summariesOf, List.filter_append]
    rw [show List.filter isSummaryA (caseBlock total tc rest succ)
        = summariesOf (caseBlock total tc rest succ) from rfl]
    rw [show List.filter isSummaryA (chainTrace total rest (succAfter tc succ))
        = summariesOf (chainTrace total rest (succAfter tc succ)) from rfl]
    rw [summariesOf_caseBlock]
    cases hr : rest with
    | nil => simp [chainTrace, summariesOf, chainSucc]
    | cons tc2 rest2 =>
      rw [summariesOf_chainTrace total (tc2 :: rest2) (succAfter tc succ) (by simp)]
      simp [chainSucc, hr]

/-- the prologue emits no summary line. -/
lemma summariesOf_specPrologue (regs : List TestCase) :
    summariesOf (specPrologue regs) = [] := by
  cases regs <;> simp [summariesOf, specPrologue, isSummaryA, List.filter_append]

/-- the succeeded counter accumulates the number of `done` completions,
mod `2 ^ 32`. -/
lemma chainSucc_eq :
    ∀ (cs : List TestCase) (succ : Nat), succ < U32 →
      chainSucc cs succ = (succ + countOk cs) % U32
  | [], succ, h => by simp [chainSucc, countOk, Nat.mod_eq_of_lt h]
  | tc :: rest, succ, h => by
    rw [chainSucc]
    cases hsig : sigOk (signalOf tc) with
    | false =>
      rw [show succAfter tc succ = succ from by simp [succAfter, hsig]]
      rw [chainSucc_eq rest succ h]
      simp [countOk, hsig]
    | true =>
      rw [show succAfter tc succ = inc32 succ from by simp [succAfter, hsig]]
      rw [chainSucc_eq rest (inc32 succ) (Nat.mod_lt _ (by simp [U32]))]
      simp only [countOk, List.countP_cons, hsig, if_true, inc32, U32]
      rw [List.countP]
      omega

/-- at most every case succeeds. -/
lemma countOk_le (cs : List TestCase) : countOk cs ≤ cs.length :=
  List.countP_le_length _

/-- the wrapping `uint32` difference agrees with plain subtraction below
`2 ^ 32`. -/
lemma sub32_of_le (a b : Nat) (hba : b ≤ a) (ha : a < U32) :
    sub32 a b = a - b := by
  simp only [sub32, U32] at *
  omega

/-- the report lines of a full run are the cases' reports in order. -/
lemma reportsOf_finalState (regs : List TestCase) :
    reportsOf (finalState regs).trace = regs.map reportOf := by
  show reportsOf (specPrologue regs ++ chainTrace (regs.length % U32) regs 0) = _
  rw [reportsOf, List.filter_append]
  rw [show (specPrologue regs).filter isReportA = reportsOf (specPrologue regs) from rfl]
  rw [show (chainTrace (regs.length % U32) regs 0).filter isReportA
      = reportsOf (chainTrace (regs.length % U32) regs 0) from rfl]
  rw [reportsOf_specPrologue, reportsOf_chainTrace]
  simp

/-- the unique summary line of a full run over a non-empty chain. -/
lemma summariesOf_finalState (regs : List TestCase) (h : regs ≠ []) :
    summariesOf (finalState regs).trace =
      [Action.summary (regs.length % U32) (chainSucc regs 0)
        (sub32 (regs.length % U32) (chainSucc regs 0))] := by
  show summariesOf (specPrologue regs ++ chainTrace (regs.length % U32) regs 0) = _
  rw [summariesOf, List.filter_append]
  rw [show (specPrologue regs).filter isSummaryA = summariesOf (specPrologue regs) from rfl]
  rw [show (chainTrace (regs.length % U32) regs 0).filter isSummaryA
      = summariesOf (chainTrace (regs.length % U32) regs 0) from rfl]
  rw [summariesOf_specPrologue, summariesOf_chainTrace _ regs 0 h]
  simp

/-- Claim C1: for every chain of N registered well-behaved cases, a run started
via `start` delivers exactly N completion signals — one report per case,
each a pass or a fail line — in registration order, and the scheduler
loop exits (both slots empty) after the last one. -/
theorem run_delivers_one_signal_per_case_in_order (regs : List TestCase)
    (hGood : ∀ tc ∈ regs, goodCase tc = true) :
    ∃ F, runRegistered regs (regs.length + 2) = some F ∧
      reportsOf F.trace = regs.map reportOf ∧
      (reportsOf F.trace).length = regs.length ∧
      F.aboutToRun = none ∧ F.running = none := by
  refine ⟨finalState regs, runRegistered_eq regs hGood, reportsOf_finalState regs,
    ?_, rfl, rfl⟩
  rw [reportsOf_finalState]
  simp

/-- the C1 theorem applied to the three-case demo chain. -/
theorem run_delivers_one_signal_per_case_in_order_witness :
    (∀ tc ∈ demoChain, goodCase tc = true) ∧
    (∃ F, runRegistered demoChain (demoChain.length + 2) = some F ∧
      reportsOf F.trace = demoChain.map reportOf ∧
      (reportsOf F.trace).length = demoChain.length ∧
      F.aboutToRun = none ∧ F.running = none) :=
  ⟨by decide, run_delivers_one_signal_per_case_in_order demoChain (by decide)⟩

/-- Claim C2: at the end of every run of N registered well-behaved cases (N
below the `uint32` bound), `succeeded + failed = total = N`, where
`succeeded` counts the cases completed via `done`, `failed` is the
`uint32` difference `total - succeeded`, and the summary line carries
exactly these counters. -/
theorem final_counters_add_up (regs : List TestCase)
    (hGood : ∀ tc ∈ regs, goodCase tc = true)
    (hlen : regs.length < U32) :
    ∃ F, runRegistered regs (regs.length + 2) = some F ∧
      F.head.totalCaseCount = regs.length ∧
      F.head.succeededCaseCount = countOk regs ∧
      F.head.succeededCaseCount
          + sub32 F.head.totalCaseCount F.head.succeededCaseCount
        = F.head.totalCaseCount ∧
      (regs ≠ [] →
        Action.summary regs.length (countOk regs) (regs.length - countOk regs)
          ∈ F.trace) := by
  have hco : countOk regs ≤ regs.length := countOk_le regs
  have hmod : regs.length % U32 = regs.length := Nat.mod_eq_of_lt hlen
  have hsucc : chainSucc regs 0 = countOk regs := by
    rw [chainSucc_eq regs 0 (by simp [U32]), Nat.zero_add]
    exact Nat.mod_eq_of_lt (lt_of_le_of_lt hco hlen)
  refine ⟨finalState regs, runRegistered_eq regs hGood, ?_, ?_, ?_, ?_⟩
  · exact hmod
  · exact hsucc
  · show chainSucc regs 0 + sub32 (regs.length % U32) (chainSucc regs 0)
      = regs.length % U32
    rw [hsucc, hmod, sub32_of_le _ _ hco hlen]
    omega
  · intro hne
    have hsum := summariesOf_finalState regs hne
    rw [hsucc, hmod, sub32_of_le _ _ hco hlen] at hsum
    have hm : Action.summary regs.length (countOk regs) (regs.length - countOk regs)
        ∈ summariesOf (finalState regs).trace := by
      rw [hsum]
      simp
    exact List.mem_of_mem_filter hm

/-- the C2 theorem applied to the three-case demo chain. -/
theorem final_counters_add_up_witness :
    ((∀ tc ∈ demoChain, goodCase tc = true) ∧ demoChain.length < U32) ∧
    (∃ F, runRegistered demoChain (demoChain.length + 2) = some F ∧
      F.head.totalCaseCount = demoChain.length ∧
      F.head.succeededCaseCount = countOk demoChain ∧
      F.head.succeededCaseCount
          + sub32 F.head.totalCaseCount F.head.succeededCaseCount
        = F.head.totalCaseCount ∧
      (demoChain ≠ [] →
        Action.summary demoChain.length (countOk demoChain)
          (demoChain.length - countOk demoChain) ∈ F.trace)) :=
  ⟨⟨by decide, by decide⟩, final_counters_add_up demoChain (by decide) (by decide)⟩

/-- Claim C3: the wrapper around a synchronous body calls `done` when the body
returns normally and `fail` with the captured error when it raises — the
case runnable's `run` converts every outcome into a completion signal —
and in a full run a raising case is reported failed while every case
still gets its report, so a failure does not stop later cases. -/
theorem sync_wrapping_converts_outcome_and_contains_failure
    (regs : List TestCase) (hGood : ∀ tc ∈ regs, goodCase tc = true) :
    (∀ s : SysState, wrappedSyncBody (Except.ok ()) s = done s) ∧
    (∀ (e : Err) (s : SysState), wrappedSyncBody (Except.error e) s = fail e s) ∧
    (∃ F, runRegistered regs (regs.length + 2) = some F ∧
      reportsOf F.trace = regs.map reportOf ∧
      (∀ tc ∈ regs, tc.kind = CaseBody.sync (Except.ok ()) →
        reportOf tc = Action.reportPass tc.should tc.stall) ∧
      (∀ tc ∈ regs, ∀ e, tc.kind = CaseBody.sync (Except.error e) →
        reportOf tc = Action.reportFail tc.should)) := by
  refine ⟨fun s => rfl, fun e s => rfl, finalState regs, runRegistered_eq regs hGood,
    reportsOf_finalState regs, ?_, ?_⟩
  · intro tc _ hk
    simp [reportOf, signalOf, hk]
  · intro tc _ e hk
    simp [reportOf, signalOf, hk]

/-- the C3 theorem applied to the three-case demo chain. -/
theorem sync_wrapping_converts_outcome_and_contains_failure_witness :
    (∀ tc ∈ demoChain, goodCase tc = true) ∧
    ((∀ s : SysState, wrappedSyncBody (Except.ok ()) s = done s) ∧
    (∀ (e : Err) (s : SysState), wrappedSyncBody (Except.error e) s = fail e s) ∧
    (∃ F, runRegistered demoChain (demoChain.length + 2) = some F ∧
      reportsOf F.trace = demoChain.map reportOf ∧
      (∀ tc ∈ demoChain, tc.kind = CaseBody.sync (Except.ok ()) →
        reportOf tc = Action.reportPass tc.should tc.stall) ∧
      (∀ tc ∈ demoChain, ∀ e, tc.kind = CaseBody.sync (Except.error e) →
        reportOf tc = Action.reportFail tc.should))) :=
  ⟨by decide, sync_wrapping_converts_outcome_and_contains_failure demoChain (by decide)⟩

/-- Claim C4: the scheduler loop realizes the specified state machine over the
pending/active pair: both empty terminates the loop; an active runnable
makes it yield and retry unchanged; pending non-empty with nothing active
promotes pending into the active slot (clearing pending and resetting the
timeout flag) and invokes its `run`, so the single active slot holds at
most one runnable at a time. -/
theorem loop_realizes_spec_state_machine (fuel : Nat) (s : SysState) :
    (specLoopRule s.aboutToRun s.running = LoopRule.terminate →
      startTheLoop (fuel + 1) s = some s) ∧
    (specLoopRule s.aboutToRun s.running = LoopRule.yieldRetry →
      startTheLoop (fuel + 1) s = startTheLoop fuel s) ∧
    (∀ r, s.aboutToRun = some r → s.running = none →
      specLoopRule s.aboutToRun s.running = LoopRule.promoteRun ∧
      startTheLoop (fuel + 1) s = startTheLoop fuel (runRunnable r (promote r s)) ∧
      (promote r s).running = some r ∧
      (promote r s).aboutToRun = none ∧
      (promote r s).monitor.isTimeout = false) := by
  refine ⟨?_, ?_, ?_⟩
  · intro h
    cases h1 : s.aboutToRun with
    | some r => cases h2 : s.running <;> simp [specLoopRule, h1, h2] at h
    | none =>
      cases h2 : s.running with
      | some r => simp [specLoopRule, h1, h2] at h
      | none => exact startTheLoop_halt fuel s h1 h2
  · intro h
    cases h2 : s.running with
    | some r => exact startTheLoop_yield fuel s r h2
    | none => cases h1 : s.aboutToRun <;> simp [specLoopRule, h1, h2] at h
  · intro r h1 h2
    exact ⟨by simp [specLoopRule, h1, h2],
      startTheLoop_promote fuel s r h1 h2, rfl, rfl, rfl⟩

/-- the C4 theorem applied at the terminal state of a fresh container. -/
theorem loop_realizes_spec_state_machine_witness :
    specLoopRule (initSys initBuild).aboutToRun (initSys initBuild).running
        = LoopRule.terminate ∧
    startTheLoop 1 (initSys initBuild) = some (initSys initBuild) :=
  ⟨by decide, (loop_realizes_spec_state_machine 0 (initSys initBuild)).1 (by decide)⟩

/-- Claim C5: in every completion signal, the report line for the finished case
and the scheduling of the next case's runnable are emitted before the
closing `endRun`, and the bookkeeping (counter update, advance of the
current case) is committed in the resulting state, so the scheduler
cannot promote the next case before the current one's bookkeeping. -/
theorem report_and_schedule_precede_endRun (s : SysState) (tc : TestCase)
    (rest : List TestCase) (hcur : s.head.currentCase = tc :: rest) :
    (∃ pre, (done s).trace = s.trace ++ pre ++ [Action.endRun] ∧
      Action.reportPass tc.should s.monitor.isTimeout ∈ pre ∧
      (rest ≠ [] → Action.scheduled (Runnable.caseRun rest) ∈ pre) ∧
      (done s).head.currentCase = rest ∧
      (done s).head.succeededCaseCount = inc32 s.head.succeededCaseCount) ∧
    (∀ e, ∃ pre, (fail e s).trace = s.trace ++ pre ++ [Action.endRun] ∧
      Action.reportFail tc.should ∈ pre ∧
      (rest ≠ [] → Action.scheduled (Runnable.caseRun rest) ∈ pre) ∧
      (fail e s).head.currentCase = rest) := by
  constructor
  · cases rest with
    | nil =>
      refine ⟨[Action.reportPass tc.should s.monitor.isTimeout,
        Action.summary s.head.totalCaseCount (inc32 s.head.succeededCaseCount)
          (sub32 s.head.totalCaseCount (inc32 s.head.succeededCaseCount))],
        ?_, by simp, by simp, ?_, ?_⟩ <;>
        simp [done, emit, endRun, scheduleToRun, hcur, List.append_assoc]
    | cons nx rest2 =>
      refine ⟨[Action.scheduled (Runnable.caseRun (nx :: rest2)),
        Action.reportPass tc.should s.monitor.isTimeout],
        ?_, by simp, by simp, ?_, ?_⟩ <;>
        simp [done, emit, endRun, scheduleToRun, hcur, List.append_assoc]
  · intro e
    cases rest with
    | nil =>
      refine ⟨[Action.reportFail tc.should,
        Action.summary s.head.totalCaseCount s.head.succeededCaseCount
          (sub32 s.head.totalCaseCount s.head.succeededCaseCount)],
        ?_, by simp, by simp, ?_⟩ <;>
        simp [fail, emit, endRun, scheduleToRun, hcur, List.append_assoc]
    | cons nx rest2 =>
      refine ⟨[Action.scheduled (Runnable.caseRun (nx :: rest2)),
        Action.reportFail tc.should],
        ?_, by simp, by simp, ?_⟩ <;>
        simp [fail, emit, endRun, scheduleToRun, hcur, List.append_assoc]

/-- the C5 theorem applied at a state whose head links two cases. -/
theorem report_and_schedule_precede_endRun_witness :
    twoCaseState.head.currentCase =
      (⟨"x", CaseBody.sync (Except.ok ()), false⟩ : TestCase) ::
        [⟨"y", CaseBody.sync (Except.ok ()), false⟩] ∧
    ((∃ pre, (done twoCaseState).trace = twoCaseState.trace ++ pre ++ [Action.endRun] ∧
      Action.reportPass "x" twoCaseState.monitor.isTimeout ∈ pre ∧
      ([(⟨"y", CaseBody.sync (Except.ok ()), false⟩ : TestCase)] ≠ [] →
        Action.scheduled (Runnable.caseRun
          [⟨"y", CaseBody.sync (Except.ok ()), false⟩]) ∈ pre) ∧
      (done twoCaseState).head.currentCase =
        [⟨"y", CaseBody.sync (Except.ok ()), false⟩] ∧
      (done twoCaseState).head.succeededCaseCount =
        inc32 twoCaseState.head.succeededCaseCount) ∧
    (∀ e, ∃ pre, (fail e twoCaseState).trace =
        twoCaseState.trace ++ pre ++ [Action.endRun] ∧
      Action.reportFail "x" ∈ pre ∧
      ([(⟨"y", CaseBody.sync (Except.ok ()), false⟩ : TestCase)] ≠ [] →
        Action.scheduled (Runnable.caseRun
          [⟨"y", CaseBody.sync (Except.ok ()), false⟩]) ∈ pre) ∧
      (fail e twoCaseState).head.currentCase =
        [⟨"y", CaseBody.sync (Except.ok ()), false⟩])) :=
  ⟨by decide, report_and_schedule_precede_endRun twoCaseState
    ⟨"x", CaseBody.sync (Except.ok ()), false⟩
    [⟨"y", CaseBody.sync (Except.ok ()), false⟩] (by decide)⟩

/-- Claim C6: the watchdog flag is cleared at each promotion, before every
runnable is run, and a case that the watchdog flagged but that completes
via `done` is reported by the pass line carrying the timeout mark of that
case alone — succeeded with a mark, never failed. -/
theorem late_case_reported_passed_with_timeout_mark (regs : List TestCase)
    (hGood : ∀ tc ∈ regs, goodCase tc = true) :
    (∀ (r : Runnable) (s : SysState), (promote r s).monitor.isTimeout = false) ∧
    (∀ tc : TestCase, signalOf tc = Except.ok () →
      reportOf tc = Action.reportPass tc.should tc.stall) ∧
    (∃ F, runRegistered regs (regs.length + 2) = some F ∧
      reportsOf F.trace = regs.map reportOf) := by
  refine ⟨fun r s => rfl, ?_, finalState regs, runRegistered_eq regs hGood,
    reportsOf_finalState regs⟩
  intro tc h
  simp [reportOf, h]

/-- the C6 theorem applied to the single slow-but-passing case. -/
theorem late_case_reported_passed_with_timeout_mark_witness :
    (∀ tc ∈ slowChain, goodCase tc = true) ∧
    ((∀ (r : Runnable) (s : SysState), (promote r s).monitor.isTimeout = false) ∧
    (∀ tc : TestCase, signalOf tc = Except.ok () →
      reportOf tc = Action.reportPass tc.should tc.stall) ∧
    (∃ F, runRegistered slowChain (slowChain.length + 2) = some F ∧
      reportsOf F.trace = slowChain.map reportOf)) :=
  ⟨by decide, late_case_reported_passed_with_timeout_mark slowChain (by decide)⟩

/-- Claim C7: the function `letItRun` leaves the head bound to a container, and registering
a case through `it` while the head is bound raises immediately and
returns the spec unchanged. -/
theorem registration_while_running_rejected :
    (∀ (total : Nat) (s : SysState), (letItRun total s).head.containerBound = true) ∧
    (∀ (tc : TestCase) (b : BuildState), b.head.containerBound = true →
      itCase tc b = (b, true)) := by
  constructor
  · intro total s
    cases h : s.head.currentCase <;> simp [letItRun, scheduleToRun, h]
  · intro tc b hb
    simp [itCase, hb]

/-- the C7 theorem applied to a bound head and a late registration. -/
theorem registration_while_running_rejected_witness :
    boundBuild.head.containerBound = true ∧
    itCase ⟨"late", CaseBody.sync (Except.ok ()), false⟩ boundBuild =
      (boundBuild, true) :=
  ⟨rfl, registration_while_running_rejected.2
    ⟨"late", CaseBody.sync (Except.ok ()), false⟩ boundBuild (by decide)⟩

/-- Claim C8 counterexample: after `notifyBeginRun` and one failed probe the
monitor's idle flag is already true while the scheduler still holds the
timed mutex (a case is still executing), so "idle iff no case is
currently executing" does not hold at every point the monitor thread can
observe. -/
theorem idle_iff_no_case_executing_fails :
    ¬ (∀ ops : List MonitorOp,
        ((monApply initMonitor ops).isIdle = true ↔
          (monApply initMonitor ops).mutexHeld = false)) := by
  intro h
  have h2 := h [MonitorOp.beginR, MonitorOp.probe false]
  simp [monApply, notifyBeginRun, probeStep, initMonitor] at h2

/-- the invariant preserved by every monitor event: a cleared idle flag
only occurs while the timed mutex is held. -/
lemma monApply_idle_invariant :
    ∀ (ops : List MonitorOp) (m : MonitorState),
      (m.isIdle = false → m.mutexHeld = true) →
      ((monApply m ops).isIdle = false → (monApply m ops).mutexHeld = true)
  | [], _, h => h
  | op :: ops, m, h => by
    rw [monApply.eq_def]
    apply monApply_idle_invariant ops
    cases op with
    | beginR => simp [notifyBeginRun]
    | endR => simp [notifyEndRun]
    | probe acq =>
      simp only [probeStep]
      split_ifs <;> simp_all

/-- Claim C8 amended: the idle flag is cleared in `notifyBeginRun` and set in
`notifyEndRun`, but the probe's timeout branch also sets it while the
case still runs, so only one direction of the claimed invariant holds:
whenever idle is false, a case is executing (the timed mutex is held). -/
theorem idle_false_implies_case_executing (ops : List MonitorOp)
    (h : (monApply initMonitor ops).isIdle = false) :
    (monApply initMonitor ops).mutexHeld = true :=
  monApply_idle_invariant ops initMonitor (by simp [initMonitor]) h

/-- the C8 amended theorem applied right after `notifyBeginRun`. -/
theorem idle_false_implies_case_executing_witness :
    (monApply initMonitor [MonitorOp.beginR]).isIdle = false ∧
    (monApply initMonitor [MonitorOp.beginR]).mutexHeld = true :=
  ⟨by decide, idle_false_implies_case_executing [MonitorOp.beginR] (by decide)⟩

/-- Claim C9 counterexample: a case body that calls `done` twice drives the
second call into `_currentCase->next` with `_currentCase` null — the run
reaches undefined behaviour, not a defined do-nothing second signal. -/
theorem second_done_dereferences_null :
    (runRegistered doubleDoneChain 3).map (fun F => F.crashed) = some true := by
  decide

/-- Claim C9 amended: a repeated `done` is not guarded against: while cases
remain linked it repeats the whole advancement — it schedules the case
after next, emits a report line for the next case although that case
never ran, increments the succeeded counter a second time and advances
the cursor again; with no case linked it dereferences a null pointer. -/
theorem second_done_repeats_advancement (s : SysState) (tc nx : TestCase)
    (rest : List TestCase) (hcur : s.head.currentCase = tc :: nx :: rest) :
    (done (done s)).head.currentCase = rest ∧
    (done (done s)).head.succeededCaseCount =
      inc32 (inc32 s.head.succeededCaseCount) ∧
    Action.reportPass nx.should s.monitor.isTimeout ∈ (done (done s)).trace ∧
    (rest ≠ [] → (done (done s)).aboutToRun = some (Runnable.caseRun rest)) := by
  cases rest with
  | nil =>
    refine ⟨?_, ?_, ?_, by simp⟩ <;>
      simp [done, emit, endRun, scheduleToRun, hcur]
  | cons r2 rest2 =>
    refine ⟨?_, ?_, ?_, fun _ => ?_⟩ <;>
      simp [done, emit, endRun, scheduleToRun, hcur]

/-- the C9 amended theorem applied at a head linking two cases. -/
theorem second_done_repeats_advancement_witness :
    twoCaseState.head.currentCase =
      (⟨"x", CaseBody.sync (Except.ok ()), false⟩ : TestCase) ::
        (⟨"y", CaseBody.sync (Except.ok ()), false⟩ : TestCase) :: [] ∧
    ((done (done twoCaseState)).head.currentCase = [] ∧
    (done (done twoCaseState)).head.succeededCaseCount =
      inc32 (inc32 twoCaseState.head.succeededCaseCount) ∧
    Action.reportPass "y" twoCaseState.monitor.isTimeout
      ∈ (done (done twoCaseState)).trace ∧
    (([] : List TestCase) ≠ [] →
      (done (done twoCaseState)).aboutToRun = some (Runnable.caseRun []))) :=
  ⟨by decide, second_done_repeats_advancement twoCaseState
    ⟨"x", CaseBody.sync (Except.ok ()), false⟩
    ⟨"y", CaseBody.sync (Except.ok ()), false⟩ [] (by decide)⟩

/-- Claim C10: a run with zero registered cases terminates cleanly — the spec
runnable brackets `letItRun` with `beginRun`/`endRun`, schedules no case,
the loop exits with both slots empty and nothing crashed — and the trace
holds no per-case report line and no summary line. -/
theorem empty_chain_run_terminates_cleanly :
    (runRegistered [] 2).map
        (fun F => (F.trace, F.aboutToRun, F.running, F.crashed)) =
      some ([Action.scheduled (Runnable.specRun 0), Action.beginRun, Action.endRun],
        none, none, false) ∧
    (runRegistered [] 2).map (fun F => reportsOf F.trace) = some [] ∧
    (runRegistered [] 2).map (fun F => summariesOf F.trace) = some [] := by
  refine ⟨?_, ?_, ?_⟩ <;> decide

end LTest
